import Mathlib

/-!
Verification of the accordion widget in src/accordion.js.

The embedding models the DOM state the widget reads and writes: per item an
optional trigger element (attributes aria-expanded, aria-controls), an
optional content element (hidden flag, inline height/opacity styles, the
aria-hidden attribute, the measured scrollHeight, an optional generated id),
plus the widget-level listener bookkeeping, the registry marker stored on the
root element, the queue of deferred animation steps (requestAnimationFrame
callbacks and one-shot transitionend listeners), and the trace of dispatched
custom events.

Inline style values: the source only ever writes the empty string, the string
0px, or a measured pixel value to style.height, and the empty string, 0 or 1
to style.opacity.  These are encoded injectively as Option Nat: none is the
cleared style (empty string) and some n is the pixel or numeric value n.

The field openState is the abstract per-item state of the specification
(Closed, Opening, Open, Closing); it is ghost instrumentation updated exactly
where the source starts a transition (inside open and close, where
aria-expanded is written) and where a deferred completion handler commits a
terminal state.  It does not influence any concrete computation.
-/

inductive OpenState where
  | Closed
  | Opening
  | Open
  | Closing
deriving Repr, DecidableEq

/-- The content element of one item: the fields of the DOM node that
src/accordion.js reads or writes. -/
structure Content where
  id : Option Nat
  hidden : Bool
  styleHeight : Option Nat
  styleOpacity : Option Nat
  ariaHidden : Option String
  scrollHeight : Nat
deriving Repr, DecidableEq

/-- The trigger element of one item. -/
structure Trigger where
  ariaExpanded : Option String
  ariaControls : Option Nat
deriving Repr, DecidableEq

/-- One accordion item: the element with class ds-accordion__item.  The
trigger and content children are found by querySelector and may be absent
(none).  activeClass records membership of the class
ds-accordion__item--active.  openState is the ghost specification state. -/
structure Item where
  activeClass : Bool
  trigger : Option Trigger
  content : Option Content
  openState : OpenState := OpenState.Closed
deriving Repr, DecidableEq

/-- Dispatched custom events (ds-accordion namespace), carrying the affected
item index where the source carries { index, item }. -/
inductive Ev where
  | initialized
  | opened (index : Nat)
  | closed (index : Nat)
deriving Repr, DecidableEq

/-- Deferred animation steps: requestAnimationFrame callbacks and the
one-shot transitionend listeners they register.  rafOpen carries the
scrollHeight captured when animateOpen ran. -/
inductive Deferred where
  | rafOpen (index h : Nat)
  | rafClose (index : Nat)
  | transEndOpen (index : Nat)
  | transEndClose (index : Nat)
deriving Repr, DecidableEq

/-- The whole mutable state of one widget instance together with the parts of
its root element the source touches: registered models the
_accordionInstance marker, keydownListener and clickListeners the listeners
the instance added, pending the queued deferred animation steps, events the
trace of dispatched custom events, focused which trigger currently has
keyboard focus, idCounter the generator behind generateId. -/
structure Accordion where
  allowMultiple : Bool
  items : List Item
  registered : Bool
  keydownListener : Bool
  clickListeners : List Nat
  pending : List Deferred
  events : List Ev
  focused : Option Nat
  idCounter : Nat
deriving Repr, DecidableEq

/-- Result of a call that may throw: acc is the state after all mutations
that happened before the call returned or the exception escaped, thrown
records whether a TypeError (null dereference) escaped. -/
structure Res where
  acc : Accordion
  thrown : Bool
deriving Repr, DecidableEq

/-- JavaScript array indexing this.items[index]: undefined for a negative or
too large index. -/
def getIdx (items : List Item) (index : Int) : Option Item :=
  if index < 0 then none else items[index.toNat]?

/-- Effect of close(index, animate) on a wired item (lines 148-168): remove
the active class, set aria-expanded to false; without animation commit
hidden and clear inline styles, with animation capture the current
scrollHeight as an explicit inline height and full opacity (animateClose,
lines 194-198) before the frame callback collapses it. -/
def closeItemFn (it : Item) (animate : Bool) : Item :=
  match it.trigger, it.content with
  | some t, some c =>
    { activeClass := false
      trigger := some { t with ariaExpanded := some "false" }
      content := some (if animate then
          { c with styleHeight := some c.scrollHeight, styleOpacity := some 1 }
        else
          { c with hidden := true, styleHeight := none, styleOpacity := none })
      openState := if animate then OpenState.Closing else OpenState.Closed }
  | _, _ => it

/-- close(index, animate = true), lines 148-168 of src/accordion.js.  The
classList.remove on line 155 succeeds even when the trigger child is
missing; the setAttribute on line 156 then throws.  When the content child
is missing, the write content.hidden (line 159) or the read
content.scrollHeight (line 195, inside animateClose) throws after
aria-expanded was already written. -/
def closeIdx (a : Accordion) (index : Int) (animate : Bool) : Res :=
  match getIdx a.items index with
  | none => ⟨a, false⟩
  | some item =>
    let i := index.toNat
    match item.trigger with
    | none => ⟨{ a with items := a.items.set i { item with activeClass := false } }, true⟩
    | some t =>
      let item2 : Item :=
        { item with
            activeClass := false
            trigger := some { t with ariaExpanded := some "false" }
            openState := if animate then OpenState.Closing else OpenState.Closed }
      match item.content with
      | none => ⟨{ a with items := a.items.set i item2 }, true⟩
      | some c =>
        if animate then
          let c2 : Content := { c with styleHeight := some c.scrollHeight, styleOpacity := some 1 }
          ⟨{ a with
              items := a.items.set i { item2 with content := some c2 }
              pending := a.pending ++ [Deferred.rafClose i]
              events := a.events ++ [Ev.closed i] }, false⟩
        else
          let c2 : Content := { c with hidden := true, styleHeight := none, styleOpacity := none }
          ⟨{ a with
              items := a.items.set i { item2 with content := some c2 }
              events := a.events ++ [Ev.closed i] }, false⟩

/-- One iteration of the forEach on lines 126-128: skip the target index,
otherwise close; an exception thrown by an earlier iteration aborts the
loop, modelled by propagating thrown. -/
def cascadeStep (index : Nat) (animate : Bool) (r : Res) (i : Nat) : Res :=
  if r.thrown then r
  else if i = index then r
  else closeIdx r.acc (Int.ofNat i) animate

/-- The cascade on lines 125-129: when allowMultiple is false, open first
runs close(i, animate) for every index other than the target. -/
def cascadeClose (a : Accordion) (index : Nat) (animate : Bool) : Res :=
  (List.range a.items.length).foldl (cascadeStep index animate) ⟨a, false⟩

/-- Effect of open(index, animate) on the wired target item itself (lines
131-146): add the active class, set aria-expanded to true, unhide the
content; without animation clear inline styles, with animation set the
zero-height, zero-opacity starting style (animateOpen, lines 174-178). -/
def openItemFn (it : Item) (animate : Bool) : Item :=
  match it.trigger, it.content with
  | some t, some c =>
    { activeClass := true
      trigger := some { t with ariaExpanded := some "true" }
      content := some (if animate then
          { c with hidden := false, styleHeight := some 0, styleOpacity := some 0 }
        else
          { c with hidden := false, styleHeight := none, styleOpacity := none })
      openState := if animate then OpenState.Opening else OpenState.Open }
  | _, _ => it

/-- Lines 131-146 of open, acting on the captured target item: add the
active class, write aria-expanded, unhide the content, then either clear
the inline styles (no animation) or set the starting style of animateOpen
and queue its frame callback, and dispatch the opened event.  A missing
trigger makes line 132 throw after the active class was added; a missing
content makes line 135 throw after aria-expanded was set. -/
def openTarget (b : Accordion) (i : Nat) (item : Item) (animate : Bool) : Res :=
  match item.trigger with
  | none => ⟨{ b with items := b.items.set i { item with activeClass := true } }, true⟩
  | some t =>
    let item2 : Item :=
      { item with
          activeClass := true
          trigger := some { t with ariaExpanded := some "true" }
          openState := if animate then OpenState.Opening else OpenState.Open }
    match item.content with
    | none => ⟨{ b with items := b.items.set i item2 }, true⟩
    | some c =>
      if animate then
        let c2 : Content := { c with hidden := false, styleHeight := some 0, styleOpacity := some 0 }
        ⟨{ b with
            items := b.items.set i { item2 with content := some c2 }
            pending := b.pending ++ [Deferred.rafOpen i c.scrollHeight]
            events := b.events ++ [Ev.opened i] }, false⟩
      else
        let c2 : Content := { c with hidden := false, styleHeight := none, styleOpacity := none }
        ⟨{ b with
            items := b.items.set i { item2 with content := some c2 }
            events := b.events ++ [Ev.opened i] }, false⟩

/-- open(index, animate = true), lines 118-146 of src/accordion.js.  The
cascade runs before the target item is touched; since it skips the target
index, the trigger and content references captured on lines 122-123 still
describe the target item when they are used on lines 131-144.  A missing
trigger makes line 132 throw after the active class was added; a missing
content makes line 135 throw after aria-expanded was set. -/
def openIdx (a : Accordion) (index : Int) (animate : Bool) : Res :=
  match getIdx a.items index with
  | none => ⟨a, false⟩
  | some item =>
    let i := index.toNat
    let r := if a.allowMultiple then ⟨a, false⟩ else cascadeClose a i animate
    if r.thrown then ⟨r.acc, true⟩
    else openTarget r.acc i item animate

/-- Firing one deferred animation step.  rafOpen (lines 180-191) commits the
measured height and registers the transitionend listener that later clears
the inline height; rafClose (lines 200-215) collapses to zero and registers
the transitionend listener of animateClose; that listener (lines 205-212)
commits hidden only when aria-expanded is still not true at fire time, and
clears the inline styles. -/
def runDeferred (a : Accordion) (d : Deferred) : Accordion :=
  match d with
  | Deferred.rafOpen i h =>
    match a.items[i]? with
    | none => a
    | some item =>
      match item.content with
      | none => a
      | some c =>
        let c2 : Content := { c with styleHeight := some h, styleOpacity := some 1 }
        { a with
            items := a.items.set i { item with content := some c2 }
            pending := a.pending ++ [Deferred.transEndOpen i] }
  | Deferred.transEndOpen i =>
    match a.items[i]? with
    | none => a
    | some item =>
      match item.content with
      | none => a
      | some c =>
        let st := if item.openState = OpenState.Opening then OpenState.Open else item.openState
        let it2 : Item := { item with content := some { c with styleHeight := none }, openState := st }
        { a with items := a.items.set i it2 }
  | Deferred.rafClose i =>
    match a.items[i]? with
    | none => a
    | some item =>
      match item.content with
      | none => a
      | some c =>
        let c2 : Content := { c with styleHeight := some 0, styleOpacity := some 0 }
        { a with
            items := a.items.set i { item with content := some c2 }
            pending := a.pending ++ [Deferred.transEndClose i] }
  | Deferred.transEndClose i =>
    match a.items[i]? with
    | none => a
    | some item =>
      match item.trigger, item.content with
      | some t, some c =>
        let hid : Bool := if t.ariaExpanded = some "true" then false else true
        let c2 : Content := { c with hidden := hid, styleHeight := none, styleOpacity := none }
        let st := if hid then OpenState.Closed else item.openState
        let it2 : Item := { item with content := some c2, openState := st }
        { a with items := a.items.set i it2 }
      | _, _ => a

/-- The target of a key event: either the trigger element of item i or some
element that does not carry the ds-accordion__trigger class. -/
inductive KeyTarget where
  | trigger (i : Nat)
  | other
deriving Repr, DecidableEq

/-- Result of handleKeydown: the new state, whether preventDefault was
called, and whether focusing a missing trigger threw. -/
structure KeyRes where
  acc : Accordion
  prevented : Bool
  thrown : Bool
deriving Repr, DecidableEq

/-- handleKeydown, lines 79-112.  Events whose target does not carry the
trigger class are ignored.  For a target that is the trigger of item ci,
currentIndex is ci; ArrowDown focuses (ci + 1) mod length, ArrowUp focuses
length - 1 when ci is 0 and ci - 1 otherwise, Home focuses index 0, End
focuses the last index; all four call preventDefault first.  Any other key
falls through the switch. -/
def handleKeydown (a : Accordion) (key : String) (target : KeyTarget) : KeyRes :=
  match target with
  | KeyTarget.other => ⟨a, false, false⟩
  | KeyTarget.trigger ci =>
    let len := a.items.length
    let focusAt : Nat → KeyRes := fun j =>
      match a.items[j]? with
      | some item =>
        match item.trigger with
        | some _ => ⟨{ a with focused := some j }, true, false⟩
        | none => ⟨a, true, true⟩
      | none => ⟨a, true, true⟩
    if key = "ArrowDown" then focusAt ((ci + 1) % len)
    else if key = "ArrowUp" then focusAt (if ci = 0 then len - 1 else ci - 1)
    else if key = "Home" then focusAt 0
    else if key = "End" then focusAt (len - 1)
    else ⟨a, false, false⟩

/-- destroy, lines 235-238: remove the keydown listener from the root and
delete the _accordionInstance marker.  Nothing else is touched: the
per-trigger click listeners added on lines 55-57 and all item DOM state
stay as they are. -/
def destroy (a : Accordion) : Accordion :=
  { a with keydownListener := false, registered := false }

/-- The guard of initAccordions, line 249: a scan constructs a fresh
instance for a root element exactly when it has no registry marker. -/
def scanInitializes (a : Accordion) : Bool := !a.registered

/-- One iteration of the init forEach, lines 38-58: items missing a trigger
or content child are skipped entirely (no id, no listener, no state
change) but stay in the item sequence; wired items get a generated content
id when missing, aria-controls, their initial state applied without
animation through the full open or close (including the cascade), and a
click listener. -/
def initItem (a : Accordion) (i : Nat) : Res :=
  match a.items[i]? with
  | none => ⟨a, false⟩
  | some item =>
    match item.trigger, item.content with
    | some t, some c =>
      let cid := match c.id with
        | some id => id
        | none => a.idCounter
      let ctr := match c.id with
        | some _ => a.idCounter
        | none => a.idCounter + 1
      let it2 : Item :=
        { item with
            trigger := some { t with ariaControls := some cid }
            content := some { c with id := some cid } }
      let a1 : Accordion := { a with items := a.items.set i it2, idCounter := ctr }
      let isActive : Bool := item.activeClass || (t.ariaExpanded == some "true")
      let r := if isActive then openIdx a1 (Int.ofNat i) false
        else closeIdx a1 (Int.ofNat i) false
      if r.thrown then r
      else ⟨{ r.acc with clickListeners := r.acc.clickListeners ++ [i] }, false⟩
    | _, _ => ⟨a, false⟩

/-- init, lines 33-62: wire every item in order, then install the keydown
listener on the root and dispatch the initialized event.  An exception
from one iteration aborts the loop and escapes. -/
def initAcc (a : Accordion) : Res :=
  let r := (List.range a.items.length).foldl
    (fun r i => if r.thrown then r else initItem r.acc i) ⟨a, false⟩
  if r.thrown then r
  else
    let a2 : Accordion :=
      { r.acc with keydownListener := true, events := r.acc.events ++ [Ev.initialized] }
    ⟨a2, false⟩

/-- The constructor, lines 7-27: allowMultiple comes from the data attribute
unless the explicit option is present (the object spread on line 18 makes
an explicit option win either way), the registry marker is stored before
init runs. -/
def construct (datasetAllowMultiple : Option String) (optAllowMultiple : Option Bool)
    (raw : List Item) : Res :=
  let allowM := match optAllowMultiple with
    | some b => b
    | none => datasetAllowMultiple == some "true"
  initAcc
    { allowMultiple := allowM
      items := raw
      registered := true
      keydownListener := false
      clickListeners := []
      pending := []
      events := []
      focused := none
      idCounter := 0 }

/-- A trigger is expanded when its aria-expanded attribute is the string
true. -/
def itemExpanded (it : Item) : Bool :=
  match it.trigger with
  | some t => t.ariaExpanded == some "true"
  | none => false

/-- The two ghost states during which the specification calls an item
expanded. -/
def isExpandedState (s : OpenState) : Bool :=
  match s with
  | OpenState.Opening => true
  | OpenState.Open => true
  | _ => false

/-- Invariant of one item: aria-expanded is the string true on the trigger
exactly when the ghost state is Opening or Open (vacuous for an item with
no trigger child). -/
def itemAriaOk (it : Item) : Bool :=
  match it.trigger with
  | none => true
  | some t => (t.ariaExpanded == some "true") == isExpandedState it.openState

/-- The invariant of claim C1 over a whole widget. -/
def ariaInv (a : Accordion) : Prop := ∀ it ∈ a.items, itemAriaOk it = true

/-- An item is wired when init found both a trigger and a content child. -/
def wiredItem (it : Item) : Bool := it.trigger.isSome && it.content.isSome

/-- Every item of the widget is wired. -/
def allWired (a : Accordion) : Prop := ∀ it ∈ a.items, wiredItem it = true

/-! Concrete fixtures used by witnesses and counterexamples. -/

/-- A trigger in the collapsed state. -/
def trigClosed : Trigger := ⟨some "false", none⟩

/-- A trigger in the expanded state. -/
def trigOpen : Trigger := ⟨some "true", none⟩

/-- A hidden content pane with no aria-hidden attribute. -/
def contHidden : Content := ⟨none, true, none, none, none, 42⟩

/-- A visible content pane with no aria-hidden attribute. -/
def contShown : Content := ⟨none, false, none, none, none, 42⟩

/-- A wired item that starts closed. -/
def itemClosedW : Item := ⟨false, some trigClosed, some contHidden, OpenState.Closed⟩

/-- A wired item that starts open. -/
def itemOpenW : Item := ⟨true, some trigOpen, some contShown, OpenState.Open⟩

/-- An item whose trigger child is missing: init would skip wiring it. -/
def itemNoTrigger : Item := ⟨false, none, some contHidden, OpenState.Closed⟩

/-- A live widget state over the given items. -/
def accOf (multi : Bool) (its : List Item) : Accordion :=
  ⟨multi, its, true, true, [], [], [], none, 0⟩

/-- The widget produced by constructing on one wired, initially closed
item: init registered a click listener for index 0. -/
def w9 : Accordion := (construct none none [itemClosedW]).acc

/-- The one-item widget whose item is already open; used to refute the
no-op half of C4. -/
def w4 : Accordion := accOf false [itemOpenW]

/-- The one-item widget whose item starts closed and carries no aria-hidden
attribute; used to refute the aria-hidden half of C5. -/
def w5 : Accordion := accOf false [itemClosedW]

/-- A one-item widget in the middle of the fast re-open race of C7: the
item was re-opened (aria-expanded is true again, content unhidden) while
the transitionend listener of the earlier animated close is still
pending. -/
def w7 : Accordion :=
  { accOf false [⟨true, some trigOpen, some contShown, OpenState.Opening⟩] with
      pending := [Deferred.transEndClose 0] }

/-- The two-item widget of the C6 scenario: item 0 closed, item 1 open,
mutual exclusion on. -/
def w6 : Accordion := accOf false [itemClosedW, itemOpenW]

/-- The three-item wired widget used by the keyboard witness. -/
def w8 : Accordion := accOf true [itemClosedW, itemClosedW, itemOpenW]

/-- The two-item widget of the C2 scenario: item A (index 0) open, item B
(index 1) closed, mutual exclusion on. -/
def w2 : Accordion := accOf false [itemOpenW, itemClosedW]


instance (a : Accordion) : Decidable (allWired a) := by
  unfold allWired
  infer_instance

instance (a : Accordion) : Decidable (ariaInv a) := by
  unfold ariaInv
  infer_instance

/-! Basic lemmas about indexing and close. -/

theorem getIdx_ofNat (items : List Item) (i : Nat) : getIdx items (Int.ofNat i) = items[i]? := by
  unfold getIdx
  rw [if_neg (by rw [Int.ofNat_eq_coe]; omega)]
  rfl

theorem getIdx_oob (items : List Item) (index : Int)
    (h : index < 0 ∨ items.length ≤ index.toNat) : getIdx items index = none := by
  unfold getIdx
  rcases h with h | h
  · rw [if_pos h]
  · split
    · rfl
    · exact List.getElem?_eq_none h

theorem closeIdx_none (a : Accordion) (index : Int) (animate : Bool)
    (h : getIdx a.items index = none) : closeIdx a index animate = ⟨a, false⟩ := by
  unfold closeIdx
  rw [h]

theorem closeIdx_wired (a : Accordion) (i : Nat) (it : Item) (t : Trigger) (c : Content)
    (hit : a.items[i]? = some it) (ht : it.trigger = some t) (hc : it.content = some c)
    (animate : Bool) :
    closeIdx a (Int.ofNat i) animate =
      ⟨{ a with
          items := a.items.set i (closeItemFn it animate),
          pending := if animate then a.pending ++ [Deferred.rafClose i] else a.pending,
          events := a.events ++ [Ev.closed i] }, false⟩ := by
  cases animate <;>
    simp only [closeIdx, closeItemFn, getIdx_ofNat, hit, ht, hc] <;> rfl

theorem closeIdx_length (a : Accordion) (index : Int) (animate : Bool) :
    (closeIdx a index animate).acc.items.length = a.items.length := by
  unfold closeIdx
  repeat' split
  all_goals simp [List.length_set]

theorem closeIdx_getElem_ne (a : Accordion) (index : Int) (animate : Bool) (j : Nat)
    (hj : j ≠ index.toNat) : (closeIdx a index animate).acc.items[j]? = a.items[j]? := by
  have h2 : index.toNat ≠ j := fun h => hj h.symm
  unfold closeIdx
  repeat' split
  all_goals simp [List.getElem?_set_ne h2]

theorem getIdx_mem (items : List Item) (index : Int) (it : Item)
    (h : getIdx items index = some it) : it ∈ items := by
  unfold getIdx at h
  split at h
  · exact absurd h (by simp)
  · exact List.getElem?_mem h

theorem closeIdx_misc (a : Accordion) (index : Int) (animate : Bool) :
    (closeIdx a index animate).acc.allowMultiple = a.allowMultiple
    ∧ (closeIdx a index animate).acc.registered = a.registered
    ∧ (closeIdx a index animate).acc.keydownListener = a.keydownListener
    ∧ (closeIdx a index animate).acc.clickListeners = a.clickListeners
    ∧ (closeIdx a index animate).acc.focused = a.focused
    ∧ (closeIdx a index animate).acc.idCounter = a.idCounter := by
  unfold closeIdx
  repeat' split
  all_goals exact ⟨rfl, rfl, rfl, rfl, rfl, rfl⟩

theorem closeIdx_pending (a : Accordion) (index : Int) (animate : Bool) :
    ∃ tl, (closeIdx a index animate).acc.pending = a.pending ++ tl := by
  unfold closeIdx
  repeat' split
  all_goals first
    | exact ⟨[], (List.append_nil _).symm⟩
    | exact ⟨[Deferred.rafClose index.toNat], rfl⟩

theorem closeIdx_events (a : Accordion) (index : Int) (animate : Bool) :
    (closeIdx a index animate).acc.events = a.events
    ∨ (closeIdx a index animate).acc.events = a.events ++ [Ev.closed index.toNat] := by
  unfold closeIdx
  repeat' split
  all_goals first | exact Or.inl rfl | exact Or.inr rfl

theorem itemAriaOk_mk (ac : Bool) (t : Trigger) (co : Option Content) (st : OpenState) :
    itemAriaOk ⟨ac, some t, co, st⟩ = ((t.ariaExpanded == some "true") == isExpandedState st) :=
  rfl

theorem itemAriaOk_mk_none (ac : Bool) (co : Option Content) (st : OpenState) :
    itemAriaOk ⟨ac, none, co, st⟩ = true :=
  rfl

theorem closeIdx_ariaInv (a : Accordion) (index : Int) (animate : Bool)
    (h : ariaInv a) : ariaInv (closeIdx a index animate).acc := by
  unfold ariaInv at h ⊢
  unfold closeIdx
  repeat' split
  all_goals intro x hx
  all_goals try exact h x hx
  all_goals rcases List.mem_or_eq_of_mem_set hx with hm | rfl
  all_goals try exact h x hm
  all_goals cases animate
  all_goals simp_all [itemAriaOk, isExpandedState]

theorem closeIdx_allWired (a : Accordion) (index : Int) (animate : Bool)
    (h : allWired a) : allWired (closeIdx a index animate).acc := by
  unfold allWired at h ⊢
  unfold closeIdx
  cases hget : getIdx a.items index with
  | none => exact h
  | some item =>
    have hw := h item (getIdx_mem _ _ _ hget)
    unfold wiredItem at hw
    cases htr : item.trigger with
    | none => rw [htr] at hw; exact absurd hw (by simp)
    | some t =>
      cases hco : item.content with
      | none => rw [hco] at hw; exact absurd hw (by simp)
      | some c =>
        cases animate <;>
          · simp only [htr, hco]
            intro x hx
            rcases List.mem_or_eq_of_mem_set hx with hm | rfl
            · exact h x hm
            · simp [wiredItem]

/-! Fold machinery for the cascade. -/

theorem foldl_inv {α : Type} {P : Res → Prop} {f : Res → α → Res}
    (hf : ∀ r x, P r → P (f r x)) :
    ∀ (l : List α) (r : Res), P r → P (l.foldl f r) := by
  intro l
  induction l with
  | nil => intro r h; exact h
  | cons x xs ih => intro r h; exact ih (f r x) (hf r x h)

theorem cascadeStep_ariaInv (index : Nat) (animate : Bool) (r : Res) (x : Nat)
    (h : ariaInv r.acc) : ariaInv (cascadeStep index animate r x).acc := by
  unfold cascadeStep
  split
  · exact h
  split
  · exact h
  · exact closeIdx_ariaInv _ _ _ h

theorem cascadeClose_ariaInv (a : Accordion) (index : Nat) (animate : Bool)
    (h : ariaInv a) : ariaInv (cascadeClose a index animate).acc := by
  unfold cascadeClose
  exact foldl_inv (fun r x => cascadeStep_ariaInv index animate r x) _ _ h

theorem cascadeStep_allWired (index : Nat) (animate : Bool) (r : Res) (x : Nat)
    (h : allWired r.acc) : allWired (cascadeStep index animate r x).acc := by
  unfold cascadeStep
  split
  · exact h
  split
  · exact h
  · exact closeIdx_allWired _ _ _ h

theorem cascadeClose_allWired (a : Accordion) (index : Nat) (animate : Bool)
    (h : allWired a) : allWired (cascadeClose a index animate).acc := by
  unfold cascadeClose
  exact foldl_inv (fun r x => cascadeStep_allWired index animate r x) _ _ h

theorem cascadeClose_pending (a : Accordion) (index : Nat) (animate : Bool) :
    ∃ tl, (cascadeClose a index animate).acc.pending = a.pending ++ tl := by
  unfold cascadeClose
  have step : ∀ (r : Res) (x : Nat), (∃ tl, r.acc.pending = a.pending ++ tl) →
      ∃ tl, (cascadeStep index animate r x).acc.pending = a.pending ++ tl := by
    intro r x hx
    obtain ⟨tl, htl⟩ := hx
    unfold cascadeStep
    split
    · exact ⟨tl, htl⟩
    split
    · exact ⟨tl, htl⟩
    · obtain ⟨tl2, h2⟩ := closeIdx_pending r.acc (Int.ofNat x) animate
      exact ⟨tl ++ tl2, by rw [h2, htl, List.append_assoc]⟩
  exact foldl_inv step _ _ ⟨[], (List.append_nil _).symm⟩

theorem cascadeClose_length (a : Accordion) (index : Nat) (animate : Bool) :
    (cascadeClose a index animate).acc.items.length = a.items.length := by
  unfold cascadeClose
  have step : ∀ (r : Res) (x : Nat), r.acc.items.length = a.items.length →
      (cascadeStep index animate r x).acc.items.length = a.items.length := by
    intro r x hx
    unfold cascadeStep
    split
    · exact hx
    split
    · exact hx
    · rw [closeIdx_length]; exact hx
  exact foldl_inv step _ _ rfl

theorem cascadeClose_target (a : Accordion) (index : Nat) (animate : Bool) :
    (cascadeClose a index animate).acc.items[index]? = a.items[index]? := by
  unfold cascadeClose
  have step : ∀ (r : Res) (x : Nat), r.acc.items[index]? = a.items[index]? →
      (cascadeStep index animate r x).acc.items[index]? = a.items[index]? := by
    intro r x hx
    unfold cascadeStep
    split
    · exact hx
    split
    · exact hx
    · next hne =>
      rw [closeIdx_getElem_ne]
      · exact hx
      · intro hj
        exact hne hj.symm
  exact foldl_inv step _ _ rfl

theorem cascadeClose_misc (a : Accordion) (index : Nat) (animate : Bool) :
    (cascadeClose a index animate).acc.allowMultiple = a.allowMultiple
    ∧ (cascadeClose a index animate).acc.registered = a.registered
    ∧ (cascadeClose a index animate).acc.keydownListener = a.keydownListener
    ∧ (cascadeClose a index animate).acc.clickListeners = a.clickListeners
    ∧ (cascadeClose a index animate).acc.focused = a.focused
    ∧ (cascadeClose a index animate).acc.idCounter = a.idCounter := by
  unfold cascadeClose
  have step : ∀ (r : Res) (x : Nat),
      (r.acc.allowMultiple = a.allowMultiple ∧ r.acc.registered = a.registered
        ∧ r.acc.keydownListener = a.keydownListener ∧ r.acc.clickListeners = a.clickListeners
        ∧ r.acc.focused = a.focused ∧ r.acc.idCounter = a.idCounter) →
      ((cascadeStep index animate r x).acc.allowMultiple = a.allowMultiple
        ∧ (cascadeStep index animate r x).acc.registered = a.registered
        ∧ (cascadeStep index animate r x).acc.keydownListener = a.keydownListener
        ∧ (cascadeStep index animate r x).acc.clickListeners = a.clickListeners
        ∧ (cascadeStep index animate r x).acc.focused = a.focused
        ∧ (cascadeStep index animate r x).acc.idCounter = a.idCounter) := by
    intro r x hx
    unfold cascadeStep
    split
    · exact hx
    split
    · exact hx
    · obtain ⟨h1, h2, h3, h4, h5, h6⟩ := closeIdx_misc r.acc (Int.ofNat x) animate
      obtain ⟨g1, g2, g3, g4, g5, g6⟩ := hx
      exact ⟨h1.trans g1, h2.trans g2, h3.trans g3, h4.trans g4, h5.trans g5, h6.trans g6⟩
  exact foldl_inv step _ _ ⟨rfl, rfl, rfl, rfl, rfl, rfl⟩

theorem cascadeClose_events (a : Accordion) (index : Nat) (animate : Bool) :
    ∃ pre, (cascadeClose a index animate).acc.events = a.events ++ pre
      ∧ ∀ e ∈ pre, ∃ j, j ≠ index ∧ e = Ev.closed j := by
  unfold cascadeClose
  have step : ∀ (r : Res) (x : Nat),
      (∃ pre, r.acc.events = a.events ++ pre ∧ ∀ e ∈ pre, ∃ j, j ≠ index ∧ e = Ev.closed j) →
      ∃ pre, (cascadeStep index animate r x).acc.events = a.events ++ pre
        ∧ ∀ e ∈ pre, ∃ j, j ≠ index ∧ e = Ev.closed j := by
    intro r x hx
    obtain ⟨pre, hpre, hall⟩ := hx
    unfold cascadeStep
    split
    · exact ⟨pre, hpre, hall⟩
    split
    · exact ⟨pre, hpre, hall⟩
    · next hne =>
      rcases closeIdx_events r.acc (Int.ofNat x) animate with he | he
      · exact ⟨pre, by rw [he, hpre], hall⟩
      · refine ⟨pre ++ [Ev.closed x], by rw [he, hpre, List.append_assoc]; rfl, ?_⟩
        intro e hme
        rcases List.mem_append.mp hme with hm | hm
        · exact hall e hm
        · have : e = Ev.closed x := List.mem_singleton.mp hm
          exact ⟨x, hne, this⟩
  exact foldl_inv step _ _ ⟨[], (List.append_nil _).symm, by intro e h; exact absurd h (by simp)⟩

theorem cascadePart_spec (a : Accordion) (index : Nat) (animate : Bool) (hw : allWired a) :
    ∀ k, k ≤ a.items.length →
      ((List.range k).foldl (cascadeStep index animate) ⟨a, false⟩).thrown = false
      ∧ ((List.range k).foldl (cascadeStep index animate) ⟨a, false⟩).acc.items.length
          = a.items.length
      ∧ (∀ j, j = index ∨ k ≤ j →
          ((List.range k).foldl (cascadeStep index animate) ⟨a, false⟩).acc.items[j]?
            = a.items[j]?)
      ∧ (∀ j it, j < k → j ≠ index → a.items[j]? = some it →
          ((List.range k).foldl (cascadeStep index animate) ⟨a, false⟩).acc.items[j]?
            = some (closeItemFn it animate)) := by
  intro k
  induction k with
  | zero =>
    intro _
    exact ⟨rfl, rfl, fun j _ => rfl, fun j it hj _ _ => absurd hj (Nat.not_lt_zero j)⟩
  | succ k ih =>
    intro hk
    have hk2 : k ≤ a.items.length := Nat.le_of_succ_le hk
    have hklt : k < a.items.length := hk
    obtain ⟨ith, ilen, iun, ipr⟩ := ih hk2
    rw [List.range_succ, List.foldl_append]
    set r := (List.range k).foldl (cascadeStep index animate) ⟨a, false⟩ with hr
    by_cases hki : k = index
    · have hstep : List.foldl (cascadeStep index animate) r [k] = r := by
        simp [cascadeStep, ith, hki]
      rw [hstep]
      refine ⟨ith, ilen, ?_, ?_⟩
      · intro j hj
        refine iun j ?_
        rcases hj with hj | hj
        · exact Or.inl hj
        · exact Or.inr (Nat.le_of_succ_le hj)
      · intro j it hj hji hjit
        by_cases hjk : j < k
        · exact ipr j it hjk hji hjit
        · have : j = k := by omega
          exact absurd (this.trans hki) hji
    · have hgk := List.getElem?_eq_getElem hklt
      set itk := a.items[k] with hitk
      have hwk := hw itk (List.getElem?_mem hgk)
      unfold wiredItem at hwk
      rw [Bool.and_eq_true] at hwk
      obtain ⟨t, ht⟩ := Option.isSome_iff_exists.mp hwk.1
      obtain ⟨c, hc⟩ := Option.isSome_iff_exists.mp hwk.2
      have hrk : r.acc.items[k]? = some itk := (iun k (Or.inr (Nat.le_refl k))).trans hgk
      have hstep : List.foldl (cascadeStep index animate) r [k]
          = closeIdx r.acc (Int.ofNat k) animate := by
        simp [cascadeStep, ith, hki]
      rw [hstep, closeIdx_wired r.acc k itk t c hrk ht hc animate]
      refine ⟨rfl, by simpa [List.length_set] using ilen, ?_, ?_⟩
      · intro j hj
        have hkj : k ≠ j := by
          rcases hj with hj | hj
          · exact fun h => hki (h.trans hj)
          · omega
        rw [List.getElem?_set_ne hkj]
        refine iun j ?_
        rcases hj with hj | hj
        · exact Or.inl hj
        · exact Or.inr (Nat.le_of_succ_le hj)
      · intro j it hj hji hjit
        by_cases hjk : j < k
        · rw [List.getElem?_set_ne (by omega)]
          exact ipr j it hjk hji hjit
        · have hjk2 : j = k := by omega
          subst hjk2
          have : it = itk := by
            rw [hgk] at hjit
            exact (Option.some.injEq _ _ ▸ hjit.symm)
          subst this
          rw [List.getElem?_set_self (by rw [ilen]; omega)]

theorem cascadeClose_spec (a : Accordion) (index : Nat) (animate : Bool) (hw : allWired a) :
    (cascadeClose a index animate).thrown = false
    ∧ (∀ j it, j < a.items.length → j ≠ index → a.items[j]? = some it →
        (cascadeClose a index animate).acc.items[j]? = some (closeItemFn it animate)) := by
  obtain ⟨h1, _, _, h4⟩ :=
    cascadePart_spec a index animate hw a.items.length (Nat.le_refl _)
  exact ⟨h1, h4⟩

/-! Lemmas about open. -/

theorem openIdx_none (a : Accordion) (index : Int) (animate : Bool)
    (h : getIdx a.items index = none) : openIdx a index animate = ⟨a, false⟩ := by
  unfold openIdx
  rw [h]

theorem openIdx_reduce (a : Accordion) (index : Int) (animate : Bool) (item : Item)
    (hget : getIdx a.items index = some item) :
    openIdx a index animate =
      (if (if a.allowMultiple then (⟨a, false⟩ : Res)
            else cascadeClose a index.toNat animate).thrown
        then ⟨(if a.allowMultiple then (⟨a, false⟩ : Res)
            else cascadeClose a index.toNat animate).acc, true⟩
        else openTarget (if a.allowMultiple then (⟨a, false⟩ : Res)
            else cascadeClose a index.toNat animate).acc index.toNat item animate) := by
  unfold openIdx
  rw [hget]

theorem openTarget_wired (b : Accordion) (i : Nat) (it : Item) (t : Trigger) (c : Content)
    (ht : it.trigger = some t) (hc : it.content = some c) (animate : Bool) :
    openTarget b i it animate =
      ⟨{ b with
          items := b.items.set i (openItemFn it animate),
          pending := if animate then b.pending ++ [Deferred.rafOpen i c.scrollHeight]
            else b.pending,
          events := b.events ++ [Ev.opened i] }, false⟩ := by
  cases animate <;>
    simp only [openTarget, openItemFn, ht, hc] <;> rfl

theorem openIdx_wired_multi (a : Accordion) (i : Nat) (it : Item) (t : Trigger) (c : Content)
    (hm : a.allowMultiple = true)
    (hit : a.items[i]? = some it) (ht : it.trigger = some t) (hc : it.content = some c)
    (animate : Bool) :
    openIdx a (Int.ofNat i) animate =
      ⟨{ a with
          items := a.items.set i (openItemFn it animate),
          pending := if animate then a.pending ++ [Deferred.rafOpen i c.scrollHeight]
            else a.pending,
          events := a.events ++ [Ev.opened i] }, false⟩ := by
  have hg : getIdx a.items (Int.ofNat i) = some it := by rw [getIdx_ofNat]; exact hit
  have h1 : openIdx a (Int.ofNat i) animate = openTarget a i it animate := by
    rw [openIdx_reduce a (Int.ofNat i) animate it hg, hm]
    rfl
  rw [h1]
  exact openTarget_wired a i it t c ht hc animate

theorem openIdx_wired_single (a : Accordion) (i : Nat) (it : Item) (t : Trigger) (c : Content)
    (hm : a.allowMultiple = false)
    (hit : a.items[i]? = some it) (ht : it.trigger = some t) (hc : it.content = some c)
    (animate : Bool) (hcc : (cascadeClose a i animate).thrown = false) :
    openIdx a (Int.ofNat i) animate =
      ⟨{ (cascadeClose a i animate).acc with
          items := (cascadeClose a i animate).acc.items.set i (openItemFn it animate),
          pending := if animate then
              (cascadeClose a i animate).acc.pending ++ [Deferred.rafOpen i c.scrollHeight]
            else (cascadeClose a i animate).acc.pending,
          events := (cascadeClose a i animate).acc.events ++ [Ev.opened i] }, false⟩ := by
  have hg : getIdx a.items (Int.ofNat i) = some it := by rw [getIdx_ofNat]; exact hit
  rw [openIdx_reduce a (Int.ofNat i) animate it hg, hm]
  simp only [Bool.false_eq_true, if_false, Int.ofNat_eq_coe, Int.toNat_ofNat, hcc]
  exact openTarget_wired _ i it t c ht hc animate

theorem openTarget_pending (b : Accordion) (i : Nat) (it : Item) (animate : Bool) :
    ∃ tl, (openTarget b i it animate).acc.pending = b.pending ++ tl := by
  unfold openTarget
  repeat' split
  all_goals first
    | exact ⟨[], (List.append_nil _).symm⟩
    | exact ⟨[Deferred.rafOpen i _], rfl⟩

theorem openTarget_ariaInv (b : Accordion) (i : Nat) (it : Item) (animate : Bool)
    (h : ariaInv b) : ariaInv (openTarget b i it animate).acc := by
  unfold ariaInv at h ⊢
  unfold openTarget
  repeat' split
  all_goals intro x hx
  all_goals rcases List.mem_or_eq_of_mem_set hx with hm | rfl
  all_goals try exact h x hm
  all_goals cases animate
  all_goals simp_all [itemAriaOk, isExpandedState]

theorem openTarget_unwired_thrown (b : Accordion) (i : Nat) (it : Item) (animate : Bool)
    (hbr : it.trigger = none ∨ it.content = none) :
    (openTarget b i it animate).thrown = true := by
  unfold openTarget
  rcases hbr with hb | hb
  · simp only [hb]
  · cases htr : it.trigger with
    | none => simp only [htr]
    | some t => simp only [htr, hb]

theorem openIdx_pending (a : Accordion) (index : Int) (animate : Bool) :
    ∃ tl, (openIdx a index animate).acc.pending = a.pending ++ tl := by
  cases hget : getIdx a.items index with
  | none =>
    rw [openIdx_none a index animate hget]
    exact ⟨[], (List.append_nil _).symm⟩
  | some item =>
    rw [openIdx_reduce a index animate item hget]
    set r := if a.allowMultiple then (⟨a, false⟩ : Res)
      else cascadeClose a index.toNat animate with hrdef
    obtain ⟨tl, htl⟩ : ∃ tl, r.acc.pending = a.pending ++ tl := by
      rw [hrdef]
      split
      · exact ⟨[], (List.append_nil _).symm⟩
      · exact cascadeClose_pending a index.toNat animate
    split
    · exact ⟨tl, htl⟩
    · obtain ⟨tl2, htl2⟩ := openTarget_pending r.acc index.toNat item animate
      exact ⟨tl ++ tl2, by rw [htl2, htl, List.append_assoc]⟩

theorem openIdx_ariaInv (a : Accordion) (index : Int) (animate : Bool)
    (h : ariaInv a) : ariaInv (openIdx a index animate).acc := by
  cases hget : getIdx a.items index with
  | none =>
    rw [openIdx_none a index animate hget]
    exact h
  | some item =>
    rw [openIdx_reduce a index animate item hget]
    set r := if a.allowMultiple then (⟨a, false⟩ : Res)
      else cascadeClose a index.toNat animate with hrdef
    have hrinv : ariaInv r.acc := by
      rw [hrdef]
      split
      · exact h
      · exact cascadeClose_ariaInv _ _ _ h
    split
    · exact hrinv
    · exact openTarget_ariaInv _ _ _ _ hrinv

theorem openIdx_unwired_thrown (a : Accordion) (i : Nat) (it : Item) (animate : Bool)
    (hit : a.items[i]? = some it)
    (hbr : it.trigger = none ∨ it.content = none) :
    (openIdx a (Int.ofNat i) animate).thrown = true := by
  rw [openIdx_reduce a (Int.ofNat i) animate it (by rw [getIdx_ofNat]; exact hit)]
  split <;> split <;>
    first
      | rfl
      | exact openTarget_unwired_thrown _ _ _ _ hbr

theorem closeIdx_unwired_thrown (a : Accordion) (i : Nat) (it : Item) (animate : Bool)
    (hit : a.items[i]? = some it)
    (hbr : it.trigger = none ∨ it.content = none) :
    (closeIdx a (Int.ofNat i) animate).thrown = true := by
  simp only [closeIdx, getIdx_ofNat, hit]
  rcases hbr with hb | hb
  · simp only [hb]
  · cases htr : it.trigger with
    | none => simp only [htr]
    | some t =>
      simp only [htr, hb]

/-! Wiredness preservation and consolidated per-index specs. -/

theorem openTarget_allWired (b : Accordion) (i : Nat) (it : Item) (animate : Bool)
    (h : allWired b) (hwit : wiredItem it = true) :
    allWired (openTarget b i it animate).acc := by
  unfold allWired at h ⊢
  unfold wiredItem at hwit
  rw [Bool.and_eq_true] at hwit
  obtain ⟨t, ht⟩ := Option.isSome_iff_exists.mp hwit.1
  obtain ⟨c, hc⟩ := Option.isSome_iff_exists.mp hwit.2
  unfold openTarget
  cases animate <;>
    · simp only [ht, hc]
      intro x hx
      rcases List.mem_or_eq_of_mem_set hx with hm | rfl
      · exact h x hm
      · simp [wiredItem]

theorem openIdx_allWired (a : Accordion) (index : Int) (animate : Bool)
    (h : allWired a) : allWired (openIdx a index animate).acc := by
  cases hget : getIdx a.items index with
  | none =>
    rw [openIdx_none a index animate hget]
    exact h
  | some item =>
    rw [openIdx_reduce a index animate item hget]
    set r := if a.allowMultiple then (⟨a, false⟩ : Res)
      else cascadeClose a index.toNat animate with hrdef
    have hrw : allWired r.acc := by
      rw [hrdef]
      split
      · exact h
      · exact cascadeClose_allWired _ _ _ h
    split
    · exact hrw
    · exact openTarget_allWired _ _ _ _ hrw (h item (getIdx_mem _ _ _ hget))

theorem getElem_some_lt (items : List Item) (i : Nat) (it : Item)
    (h : items[i]? = some it) : i < items.length := by
  rcases Nat.lt_or_ge i items.length with hlt | hge
  · exact hlt
  · rw [List.getElem?_eq_none hge] at h
    cases h

theorem closeIdx_spec (a : Accordion) (i : Nat) (it : Item) (t : Trigger) (c : Content)
    (animate : Bool)
    (hit : a.items[i]? = some it) (ht : it.trigger = some t) (hc : it.content = some c) :
    (closeIdx a (Int.ofNat i) animate).thrown = false
    ∧ (closeIdx a (Int.ofNat i) animate).acc.items[i]? = some (closeItemFn it animate)
    ∧ (∀ j, j ≠ i → (closeIdx a (Int.ofNat i) animate).acc.items[j]? = a.items[j]?)
    ∧ (closeIdx a (Int.ofNat i) animate).acc.items.length = a.items.length
    ∧ (closeIdx a (Int.ofNat i) animate).acc.events = a.events ++ [Ev.closed i] := by
  rw [closeIdx_wired a i it t c hit ht hc animate]
  refine ⟨rfl, ?_, ?_, by simp [List.length_set], rfl⟩
  · exact List.getElem?_set_self (getElem_some_lt a.items i it hit)
  · intro j hj
    exact List.getElem?_set_ne (fun h => hj h.symm)

theorem openIdx_spec_multi (a : Accordion) (i : Nat) (it : Item) (t : Trigger) (c : Content)
    (animate : Bool) (hm : a.allowMultiple = true)
    (hit : a.items[i]? = some it) (ht : it.trigger = some t) (hc : it.content = some c) :
    (openIdx a (Int.ofNat i) animate).thrown = false
    ∧ (openIdx a (Int.ofNat i) animate).acc.items[i]? = some (openItemFn it animate)
    ∧ (∀ j, j ≠ i → (openIdx a (Int.ofNat i) animate).acc.items[j]? = a.items[j]?)
    ∧ (openIdx a (Int.ofNat i) animate).acc.items.length = a.items.length
    ∧ (openIdx a (Int.ofNat i) animate).acc.events = a.events ++ [Ev.opened i] := by
  rw [openIdx_wired_multi a i it t c hm hit ht hc animate]
  refine ⟨rfl, ?_, ?_, by simp [List.length_set], rfl⟩
  · exact List.getElem?_set_self (getElem_some_lt a.items i it hit)
  · intro j hj
    exact List.getElem?_set_ne (fun h => hj h.symm)

theorem openIdx_spec_single (a : Accordion) (i : Nat) (it : Item) (t : Trigger) (c : Content)
    (animate : Bool) (hm : a.allowMultiple = false) (hw : allWired a)
    (hit : a.items[i]? = some it) (ht : it.trigger = some t) (hc : it.content = some c) :
    (openIdx a (Int.ofNat i) animate).thrown = false
    ∧ (openIdx a (Int.ofNat i) animate).acc.items[i]? = some (openItemFn it animate)
    ∧ (∀ j jt, j ≠ i → a.items[j]? = some jt →
        (openIdx a (Int.ofNat i) animate).acc.items[j]? = some (closeItemFn jt animate))
    ∧ (openIdx a (Int.ofNat i) animate).acc.items.length = a.items.length := by
  have hcc := (cascadeClose_spec a i animate hw).1
  have hpr := (cascadeClose_spec a i animate hw).2
  rw [openIdx_wired_single a i it t c hm hit ht hc animate hcc]
  refine ⟨rfl, ?_, ?_, by simp [List.length_set, cascadeClose_length]⟩
  · refine List.getElem?_set_self ?_
    rw [cascadeClose_length]
    exact getElem_some_lt a.items i it hit
  · intro j jt hj hjt
    rw [List.getElem?_set_ne (fun h => hj h.symm)]
    exact hpr j jt (getElem_some_lt a.items j jt hjt) hj hjt

/-! Idempotence of the per-item transformations. -/

theorem closeItemFn_idem (it : Item) (animate : Bool) :
    closeItemFn (closeItemFn it animate) animate = closeItemFn it animate := by
  cases htr : it.trigger with
  | none => simp [closeItemFn, htr]
  | some t =>
    cases hco : it.content with
    | none => simp [closeItemFn, htr, hco]
    | some c => cases animate <;> simp [closeItemFn, htr, hco]

theorem openItemFn_idem (it : Item) (animate : Bool) :
    openItemFn (openItemFn it animate) animate = openItemFn it animate := by
  cases htr : it.trigger with
  | none => simp [openItemFn, htr]
  | some t =>
    cases hco : it.content with
    | none => simp [openItemFn, htr, hco]
    | some c => cases animate <;> simp [openItemFn, htr, hco]

theorem wiredItem_closeItemFn (it : Item) (animate : Bool) :
    wiredItem (closeItemFn it animate) = wiredItem it := by
  cases htr : it.trigger with
  | none => simp [closeItemFn, htr]
  | some t =>
    cases hco : it.content with
    | none => simp [closeItemFn, htr, hco]
    | some c => cases animate <;> simp [closeItemFn, wiredItem, htr, hco]

theorem wiredItem_openItemFn (it : Item) (animate : Bool) :
    wiredItem (openItemFn it animate) = wiredItem it := by
  cases htr : it.trigger with
  | none => simp [openItemFn, htr]
  | some t =>
    cases hco : it.content with
    | none => simp [openItemFn, htr, hco]
    | some c => cases animate <;> simp [openItemFn, wiredItem, htr, hco]

theorem openTarget_allowMultiple (b : Accordion) (i : Nat) (it : Item) (animate : Bool) :
    (openTarget b i it animate).acc.allowMultiple = b.allowMultiple := by
  unfold openTarget
  repeat' split
  all_goals rfl

theorem openIdx_allowMultiple (a : Accordion) (index : Int) (animate : Bool) :
    (openIdx a index animate).acc.allowMultiple = a.allowMultiple := by
  cases hget : getIdx a.items index with
  | none => rw [openIdx_none a index animate hget]
  | some item =>
    rw [openIdx_reduce a index animate item hget]
    set r := if a.allowMultiple then (⟨a, false⟩ : Res)
      else cascadeClose a index.toNat animate with hrdef
    have hrm : r.acc.allowMultiple = a.allowMultiple := by
      rw [hrdef]
      split
      · rfl
      · exact (cascadeClose_misc a index.toNat animate).1
    split
    · exact hrm
    · rw [openTarget_allowMultiple]
      exact hrm

theorem closeIdx_allowMultiple (a : Accordion) (index : Int) (animate : Bool) :
    (closeIdx a index animate).acc.allowMultiple = a.allowMultiple :=
  (closeIdx_misc a index animate).1

theorem open_twice_items (a : Accordion) (i : Nat) (an : Bool)
    (hw : allWired a) (hi : i < a.items.length) :
    (openIdx (openIdx a (Int.ofNat i) an).acc (Int.ofNat i) an).acc.items
      = (openIdx a (Int.ofNat i) an).acc.items := by
  have hit : a.items[i]? = some a.items[i] := List.getElem?_eq_getElem hi
  set it := a.items[i] with hdef
  have hwit := hw it (List.getElem?_mem hit)
  unfold wiredItem at hwit
  rw [Bool.and_eq_true] at hwit
  obtain ⟨t, ht⟩ := Option.isSome_iff_exists.mp hwit.1
  obtain ⟨c, hc⟩ := Option.isSome_iff_exists.mp hwit.2
  have hw1 : allWired (openIdx a (Int.ofNat i) an).acc := openIdx_allWired a _ an hw
  set A1 := (openIdx a (Int.ofNat i) an).acc with hA1
  have hwit1 : wiredItem (openItemFn it an) = true := by
    rw [wiredItem_openItemFn]
    unfold wiredItem
    rw [ht, hc]
    rfl
  unfold wiredItem at hwit1
  rw [Bool.and_eq_true] at hwit1
  obtain ⟨t1, ht1⟩ := Option.isSome_iff_exists.mp hwit1.1
  obtain ⟨c1, hc1⟩ := Option.isSome_iff_exists.mp hwit1.2
  cases hm : a.allowMultiple with
  | true =>
    obtain ⟨_, hsi, hsne, hslen, _⟩ := openIdx_spec_multi a i it t c an hm hit ht hc
    have hm1 : A1.allowMultiple = true := by
      rw [hA1, openIdx_allowMultiple]
      exact hm
    obtain ⟨_, hsi2, hsne2, hslen2, _⟩ :=
      openIdx_spec_multi A1 i (openItemFn it an) t1 c1 an hm1 hsi ht1 hc1
    refine List.ext_getElem? ?_
    intro n
    by_cases hn : n = i
    · subst hn
      rw [hsi2, hsi, openItemFn_idem]
    · rw [hsne2 n hn]
  | false =>
    obtain ⟨_, hsi, hsne, hslen⟩ := openIdx_spec_single a i it t c an hm hw hit ht hc
    have hm1 : A1.allowMultiple = false := by
      rw [hA1, openIdx_allowMultiple]
      exact hm
    obtain ⟨_, hsi2, hsne2, hslen2⟩ :=
      openIdx_spec_single A1 i (openItemFn it an) t1 c1 an hm1 hw1 hsi ht1 hc1
    refine List.ext_getElem? ?_
    intro n
    by_cases hn : n = i
    · subst hn
      rw [hsi2, hsi, openItemFn_idem]
    · by_cases hlt : n < a.items.length
      · have hnt : a.items[n]? = some a.items[n] := List.getElem?_eq_getElem hlt
        have h1 := hsne n a.items[n] hn hnt
        have h2 := hsne2 n (closeItemFn a.items[n] an) hn h1
        rw [h2, h1, closeItemFn_idem]
      · have h1 : A1.items[n]? = none := by
          rw [List.getElem?_eq_none]
          rw [hslen]
          omega
        have h2 : (openIdx A1 (Int.ofNat i) an).acc.items[n]? = none := by
          rw [List.getElem?_eq_none]
          rw [hslen2, hslen]
          omega
        rw [h2, h1]

theorem close_twice_items (a : Accordion) (i : Nat) (an : Bool)
    (hw : allWired a) (hi : i < a.items.length) :
    (closeIdx (closeIdx a (Int.ofNat i) an).acc (Int.ofNat i) an).acc.items
      = (closeIdx a (Int.ofNat i) an).acc.items := by
  have hit : a.items[i]? = some a.items[i] := List.getElem?_eq_getElem hi
  set it := a.items[i] with hdef
  have hwit := hw it (List.getElem?_mem hit)
  unfold wiredItem at hwit
  rw [Bool.and_eq_true] at hwit
  obtain ⟨t, ht⟩ := Option.isSome_iff_exists.mp hwit.1
  obtain ⟨c, hc⟩ := Option.isSome_iff_exists.mp hwit.2
  have hwit1 : wiredItem (closeItemFn it an) = true := by
    rw [wiredItem_closeItemFn]
    unfold wiredItem
    rw [ht, hc]
    rfl
  unfold wiredItem at hwit1
  rw [Bool.and_eq_true] at hwit1
  obtain ⟨t1, ht1⟩ := Option.isSome_iff_exists.mp hwit1.1
  obtain ⟨c1, hc1⟩ := Option.isSome_iff_exists.mp hwit1.2
  obtain ⟨_, hsi, hsne, hslen, _⟩ := closeIdx_spec a i it t c an hit ht hc
  obtain ⟨_, hsi2, hsne2, hslen2, _⟩ :=
    closeIdx_spec (closeIdx a (Int.ofNat i) an).acc i (closeItemFn it an) t1 c1 an hsi ht1 hc1
  refine List.ext_getElem? ?_
  intro n
  by_cases hn : n = i
  · subst hn
    rw [hsi2, hsi, closeItemFn_idem]
  · rw [hsne2 n hn]

/-! Claim theorems. -/

/-- Claim C3: for every constructed widget and every out-of-range index,
open and close throw no error, emit no event, and leave the whole widget
state (items, attributes, classes, listeners, pending steps) unchanged:
both calls return the input state with thrown = false. -/
theorem claim3_out_of_range_noop (a : Accordion) (index : Int) (animate : Bool)
    (hoob : index < 0 ∨ a.items.length ≤ index.toNat) :
    openIdx a index animate = ⟨a, false⟩ ∧ closeIdx a index animate = ⟨a, false⟩ :=
  ⟨openIdx_none a index animate (getIdx_oob _ _ hoob),
   closeIdx_none a index animate (getIdx_oob _ _ hoob)⟩

/-- Witness for C3 on a one-item widget: open(99) and close(-1) return the
state unchanged without throwing. -/
theorem claim3_out_of_range_noop_witness :
    ((99 : Int) < 0 ∨ (accOf false [itemClosedW]).items.length ≤ (99 : Int).toNat)
    ∧ ((-1 : Int) < 0 ∨ (accOf false [itemClosedW]).items.length ≤ (-1 : Int).toNat)
    ∧ openIdx (accOf false [itemClosedW]) 99 true = ⟨accOf false [itemClosedW], false⟩
    ∧ closeIdx (accOf false [itemClosedW]) (-1) true = ⟨accOf false [itemClosedW], false⟩ :=
  ⟨Or.inr (by decide), Or.inl (by decide),
   (claim3_out_of_range_noop (accOf false [itemClosedW]) 99 true (Or.inr (by decide))).1,
   (claim3_out_of_range_noop (accOf false [itemClosedW]) (-1) true (Or.inl (by decide))).2⟩

/-- Claim C9 amended: destroy removes the root keydown listener and clears
the registry marker, so a subsequent scan re-initializes the element as a
fresh instance, and it leaves all item DOM state, pending animation steps
and the event trace untouched; however it does NOT remove the per-trigger
click listeners registered by init, which stay behind. -/
theorem claim9_destroy_amended (a : Accordion) :
    (destroy a).keydownListener = false
    ∧ (destroy a).registered = false
    ∧ scanInitializes (destroy a) = true
    ∧ (destroy a).items = a.items
    ∧ (destroy a).pending = a.pending
    ∧ (destroy a).events = a.events
    ∧ (destroy a).clickListeners = a.clickListeners :=
  ⟨rfl, rfl, rfl, rfl, rfl, rfl, rfl⟩

/-- Counterexample to C9 as stated: after construction the instance holds a
click listener on the trigger of item 0, and destroy leaves that listener
registered, so destroy does not remove all listeners the instance
registered. -/
theorem claim9_destroy_counterexample :
    w9.clickListeners = [0]
    ∧ (destroy w9).clickListeners = [0]
    ∧ (destroy w9).clickListeners ≠ [] := by
  refine ⟨by decide, by decide, by decide⟩

/-- Claim C10: an in-range item that init left unwired (missing trigger or
content child) makes open(i) and close(i) throw a TypeError, while any
out-of-range index is still absorbed silently: the first two conjuncts
record the throw, the last two the contrast at index length (out of
range). -/
theorem claim10_unwired_inrange_throws (a : Accordion) (i : Nat) (it : Item) (animate : Bool)
    (hit : a.items[i]? = some it)
    (hbr : it.trigger = none ∨ it.content = none) :
    (openIdx a (Int.ofNat i) animate).thrown = true
    ∧ (closeIdx a (Int.ofNat i) animate).thrown = true
    ∧ openIdx a (Int.ofNat a.items.length) animate = ⟨a, false⟩
    ∧ closeIdx a (Int.ofNat a.items.length) animate = ⟨a, false⟩ :=
  ⟨openIdx_unwired_thrown a i it animate hit hbr,
   closeIdx_unwired_thrown a i it animate hit hbr,
   openIdx_none a _ animate (getIdx_oob _ _ (Or.inr (Nat.le_refl _))),
   closeIdx_none a _ animate (getIdx_oob _ _ (Or.inr (Nat.le_refl _)))⟩

/-- Witness for C10 on a widget whose only item has no trigger child:
open(0) and close(0) throw, open(1) and close(1) are silent no-ops. -/
theorem claim10_unwired_inrange_throws_witness :
    (accOf false [itemNoTrigger]).items[0]? = some itemNoTrigger
    ∧ (itemNoTrigger.trigger = none ∨ itemNoTrigger.content = none)
    ∧ (openIdx (accOf false [itemNoTrigger]) (Int.ofNat 0) false).thrown = true
    ∧ (closeIdx (accOf false [itemNoTrigger]) (Int.ofNat 0) false).thrown = true
    ∧ openIdx (accOf false [itemNoTrigger])
        (Int.ofNat (accOf false [itemNoTrigger]).items.length) false
        = ⟨accOf false [itemNoTrigger], false⟩
    ∧ closeIdx (accOf false [itemNoTrigger])
        (Int.ofNat (accOf false [itemNoTrigger]).items.length) false
        = ⟨accOf false [itemNoTrigger], false⟩ := by
  refine ⟨by decide, Or.inl (by decide), ?_⟩
  have h := claim10_unwired_inrange_throws (accOf false [itemNoTrigger]) 0 itemNoTrigger false
    (by decide) (Or.inl (by decide))
  exact ⟨h.1, h.2.1, h.2.2.1, h.2.2.2⟩

/-- Counterexample to C4 as stated: item 0 of w4 is already open
(aria-expanded is true), yet open(0, false) is not a no-op: the call
re-runs its mutations and dispatches another opened event, so the state
after the call differs from the state before it. -/
theorem claim4_not_noop_counterexample :
    itemExpanded itemOpenW = true
    ∧ (openIdx w4 (Int.ofNat 0) false).acc ≠ w4
    ∧ (openIdx w4 (Int.ofNat 0) false).acc.events = [Ev.opened 0] := by
  refine ⟨by decide, by decide, by decide⟩

/-- Claim C4 amended: open and close are not guarded no-ops on an item
already in the requested terminal state (each call re-applies its
mutations and re-dispatches its event, as the counterexample shows), but
they are idempotent on the item states: calling open(i) twice in
succession leaves every item with exactly the attributes, classes, hidden
flag and inline styles that a single call produces, and the same holds
for close(i). -/
theorem claim4_idempotent_amended (a : Accordion) (i : Nat) (an : Bool)
    (hw : allWired a) (hi : i < a.items.length) :
    (openIdx (openIdx a (Int.ofNat i) an).acc (Int.ofNat i) an).acc.items
      = (openIdx a (Int.ofNat i) an).acc.items
    ∧ (closeIdx (closeIdx a (Int.ofNat i) an).acc (Int.ofNat i) an).acc.items
      = (closeIdx a (Int.ofNat i) an).acc.items :=
  ⟨open_twice_items a i an hw hi, close_twice_items a i an hw hi⟩

/-- Witness for the amended C4 on a two-item widget with mutual exclusion:
opening (or closing) index 0 twice yields the same item list as doing it
once, with and without animation exercised through an = true. -/
theorem claim4_idempotent_amended_witness :
    allWired (accOf false [itemOpenW, itemClosedW])
    ∧ 0 < (accOf false [itemOpenW, itemClosedW]).items.length
    ∧ (openIdx (openIdx (accOf false [itemOpenW, itemClosedW]) (Int.ofNat 0) true).acc
        (Int.ofNat 0) true).acc.items
      = (openIdx (accOf false [itemOpenW, itemClosedW]) (Int.ofNat 0) true).acc.items
    ∧ (closeIdx (closeIdx (accOf false [itemOpenW, itemClosedW]) (Int.ofNat 0) true).acc
        (Int.ofNat 0) true).acc.items
      = (closeIdx (accOf false [itemOpenW, itemClosedW]) (Int.ofNat 0) true).acc.items := by
  refine ⟨by decide, by decide, ?_⟩
  have h := claim4_idempotent_amended (accOf false [itemOpenW, itemClosedW]) 0 true
    (by decide) (by decide)
  exact ⟨h.1, h.2⟩

/-- Counterexample to C5 as stated: after the non-animated open(0) on w5 the
content element exists and is unhidden, but its aria-hidden attribute is
not the string false: the code never writes aria-hidden, so the attribute
is still absent. -/
theorem claim5_aria_hidden_counterexample :
    ((openIdx w5 (Int.ofNat 0) false).acc.items[0]?.bind Item.content).map Content.hidden
      = some false
    ∧ ((openIdx w5 (Int.ofNat 0) false).acc.items[0]?.bind Item.content).map Content.ariaHidden
      ≠ some (some "false")
    ∧ ((openIdx w5 (Int.ofNat 0) false).acc.items[0]?.bind Item.content).map Content.ariaHidden
      = some none := by
  refine ⟨by decide, by decide, by decide⟩

/-- Claim C5 amended: after a non-animated close(i) the content element has
hidden = true, and after a non-animated open(i) it has hidden = false; in
both cases the aria-hidden attribute of the content is left exactly as it
was before the call, because open and close never write aria-hidden. -/
theorem claim5_non_animated_hidden_amended (a : Accordion) (i : Nat) (it : Item)
    (t : Trigger) (c : Content) (hw : allWired a)
    (hit : a.items[i]? = some it) (ht : it.trigger = some t) (hc : it.content = some c) :
    (∃ it2 c2, (closeIdx a (Int.ofNat i) false).acc.items[i]? = some it2
      ∧ it2.content = some c2 ∧ c2.hidden = true ∧ c2.ariaHidden = c.ariaHidden)
    ∧ (∃ it2 c2, (openIdx a (Int.ofNat i) false).acc.items[i]? = some it2
      ∧ it2.content = some c2 ∧ c2.hidden = false ∧ c2.ariaHidden = c.ariaHidden) := by
  constructor
  · obtain ⟨_, hsi, _, _, _⟩ := closeIdx_spec a i it t c false hit ht hc
    refine ⟨closeItemFn it false,
      { c with hidden := true, styleHeight := none, styleOpacity := none }, hsi, ?_, rfl, rfl⟩
    simp [closeItemFn, ht, hc]
  · have hopen : (openIdx a (Int.ofNat i) false).acc.items[i]? = some (openItemFn it false) := by
      cases hm : a.allowMultiple with
      | true => exact (openIdx_spec_multi a i it t c false hm hit ht hc).2.1
      | false => exact (openIdx_spec_single a i it t c false hm hw hit ht hc).2.1
    refine ⟨openItemFn it false,
      { c with hidden := false, styleHeight := none, styleOpacity := none }, hopen, ?_, rfl, rfl⟩
    simp [openItemFn, ht, hc]

/-- Witness for the amended C5 on a two-item widget: close(0, false) commits
hidden and open(0, false) unhides, leaving aria-hidden untouched. -/
theorem claim5_non_animated_hidden_amended_witness :
    allWired (accOf false [itemOpenW, itemClosedW])
    ∧ (accOf false [itemOpenW, itemClosedW]).items[0]? = some itemOpenW
    ∧ itemOpenW.trigger = some trigOpen
    ∧ itemOpenW.content = some contShown
    ∧ ((∃ it2 c2,
          (closeIdx (accOf false [itemOpenW, itemClosedW]) (Int.ofNat 0) false).acc.items[0]?
            = some it2
          ∧ it2.content = some c2 ∧ c2.hidden = true ∧ c2.ariaHidden = contShown.ariaHidden)
      ∧ (∃ it2 c2,
          (openIdx (accOf false [itemOpenW, itemClosedW]) (Int.ofNat 0) false).acc.items[0]?
            = some it2
          ∧ it2.content = some c2 ∧ c2.hidden = false ∧ c2.ariaHidden = contShown.ariaHidden)) :=
  ⟨by decide, by decide, by decide, by decide,
   claim5_non_animated_hidden_amended (accOf false [itemOpenW, itemClosedW]) 0 itemOpenW
     trigOpen contShown (by decide) (by decide) (by decide) (by decide)⟩

/-- Claim C7: the transitionend handler of an animated close commits
hidden = true on the content exactly when the aria-expanded attribute of
the trigger is still not the string true at the moment the handler fires;
in particular the stale handler of a close that was overtaken by a
re-open never leaves the content hidden while aria-expanded is true. -/
theorem claim7_close_handler_guard (a : Accordion) (i : Nat) (it : Item)
    (t : Trigger) (c : Content)
    (hit : a.items[i]? = some it) (ht : it.trigger = some t) (hc : it.content = some c) :
    ∃ it2 c2, (runDeferred a (Deferred.transEndClose i)).items[i]? = some it2
      ∧ it2.content = some c2
      ∧ it2.trigger = some t
      ∧ (c2.hidden = true ↔ ¬ t.ariaExpanded = some "true")
      ∧ ¬ (c2.hidden = true ∧ t.ariaExpanded = some "true") := by
  have hlen := getElem_some_lt a.items i it hit
  unfold runDeferred
  simp only [hit, ht, hc]
  by_cases hexp : t.ariaExpanded = some "true"
  · rw [if_pos hexp]
    refine ⟨_, _, List.getElem?_set_self hlen, rfl, rfl, ?_, ?_⟩
    · simp [hexp]
    · simp
  · rw [if_neg hexp]
    refine ⟨_, _, List.getElem?_set_self hlen, rfl, rfl, ?_, ?_⟩
    · simp [hexp]
    · simp [hexp]

/-- Witness for C7 at the re-open race: firing the stale close handler on w7
leaves the content visible (hidden stays false) because aria-expanded is
true again. -/
theorem claim7_close_handler_guard_witness :
    w7.items[0]? = some ⟨true, some trigOpen, some contShown, OpenState.Opening⟩
    ∧ (∃ it2 c2, (runDeferred w7 (Deferred.transEndClose 0)).items[0]? = some it2
      ∧ it2.content = some c2
      ∧ it2.trigger = some trigOpen
      ∧ (c2.hidden = true ↔ ¬ trigOpen.ariaExpanded = some "true")
      ∧ ¬ (c2.hidden = true ∧ trigOpen.ariaExpanded = some "true")) :=
  ⟨by decide,
   claim7_close_handler_guard w7 0 ⟨true, some trigOpen, some contShown, OpenState.Opening⟩
     trigOpen contShown (by decide) (by decide) (by decide)⟩

/-- Claim C6: on a two-item widget with allowMultiple false where item 1 is
open and item 0 closed, open(0) appends to the event trace exactly one
closed event carrying index 1 followed by exactly one opened event
carrying index 0, and throws nothing. -/
theorem claim6_two_item_event_order (a : Accordion) (it0 it1 : Item)
    (hitems : a.items = [it0, it1]) (hm : a.allowMultiple = false)
    (hw : allWired a)
    (h1open : itemExpanded it1 = true) (h0closed : itemExpanded it0 = false) :
    (openIdx a (Int.ofNat 0) true).thrown = false
    ∧ (openIdx a (Int.ofNat 0) true).acc.events = a.events ++ [Ev.closed 1, Ev.opened 0] := by
  have hit0 : a.items[0]? = some it0 := by rw [hitems]; rfl
  have hit1 : a.items[1]? = some it1 := by rw [hitems]; rfl
  have hw0 := hw it0 (List.getElem?_mem hit0)
  have hw1 := hw it1 (List.getElem?_mem hit1)
  unfold wiredItem at hw0 hw1
  rw [Bool.and_eq_true] at hw0 hw1
  obtain ⟨t0, ht0⟩ := Option.isSome_iff_exists.mp hw0.1
  obtain ⟨c0, hc0⟩ := Option.isSome_iff_exists.mp hw0.2
  obtain ⟨t1, ht1⟩ := Option.isSome_iff_exists.mp hw1.1
  obtain ⟨c1, hc1⟩ := Option.isSome_iff_exists.mp hw1.2
  have hlen : a.items.length = 2 := by rw [hitems]; rfl
  have hcasc : cascadeClose a 0 true = closeIdx a (Int.ofNat 1) true := by
    unfold cascadeClose
    rw [hlen]
    rfl
  obtain ⟨hth, _, _, _, hev⟩ := closeIdx_spec a 1 it1 t1 c1 true hit1 ht1 hc1
  have hcc : (cascadeClose a 0 true).thrown = false := by rw [hcasc]; exact hth
  rw [openIdx_wired_single a 0 it0 t0 c0 hm hit0 ht0 hc0 true hcc]
  refine ⟨rfl, ?_⟩
  show (cascadeClose a 0 true).acc.events ++ [Ev.opened 0] = _
  rw [hcasc, hev, List.append_assoc]
  rfl

/-- Witness for C6: on w6, open(0) produces exactly the trace
[closed 1, opened 0]. -/
theorem claim6_two_item_event_order_witness :
    w6.items = [itemClosedW, itemOpenW]
    ∧ w6.allowMultiple = false
    ∧ allWired w6
    ∧ itemExpanded itemOpenW = true
    ∧ itemExpanded itemClosedW = false
    ∧ (openIdx w6 (Int.ofNat 0) true).thrown = false
    ∧ (openIdx w6 (Int.ofNat 0) true).acc.events = w6.events ++ [Ev.closed 1, Ev.opened 0] := by
  refine ⟨rfl, rfl, by decide, by decide, by decide, ?_⟩
  have h := claim6_two_item_event_order w6 itemClosedW itemOpenW rfl rfl
    (by decide) (by decide) (by decide)
  exact ⟨h.1, h.2⟩

theorem focus_resolves (a : Accordion) (j : Nat) (hw : allWired a)
    (hj : j < a.items.length) :
    ∃ it t, a.items[j]? = some it ∧ it.trigger = some t := by
  have hjt := List.getElem?_eq_getElem hj
  have hwj := hw _ (List.getElem?_mem hjt)
  unfold wiredItem at hwj
  rw [Bool.and_eq_true] at hwj
  obtain ⟨t, ht⟩ := Option.isSome_iff_exists.mp hwj.1
  exact ⟨_, t, hjt, ht⟩

/-- Claim C8: for key events targeting the trigger of item i of a fully
wired widget, ArrowDown focuses the next trigger and ArrowUp the previous
one, both wrapping circularly (conjuncts five and six state the two wrap
cases explicitly), Home focuses the first and End the last trigger, all
four with preventDefault; any other key leaves the state unchanged and
does not call preventDefault, so it propagates normally. -/
theorem claim8_keyboard_router (a : Accordion) (i : Nat) (key : String)
    (hw : allWired a) (hi : i < a.items.length) :
    handleKeydown a "ArrowDown" (KeyTarget.trigger i)
      = ⟨{ a with focused := some ((i + 1) % a.items.length) }, true, false⟩
    ∧ handleKeydown a "ArrowUp" (KeyTarget.trigger i)
      = ⟨{ a with focused := some (if i = 0 then a.items.length - 1 else i - 1) }, true, false⟩
    ∧ handleKeydown a "Home" (KeyTarget.trigger i)
      = ⟨{ a with focused := some 0 }, true, false⟩
    ∧ handleKeydown a "End" (KeyTarget.trigger i)
      = ⟨{ a with focused := some (a.items.length - 1) }, true, false⟩
    ∧ (i = a.items.length - 1 →
        handleKeydown a "ArrowDown" (KeyTarget.trigger i)
          = ⟨{ a with focused := some 0 }, true, false⟩)
    ∧ (i = 0 →
        handleKeydown a "ArrowUp" (KeyTarget.trigger i)
          = ⟨{ a with focused := some (a.items.length - 1) }, true, false⟩)
    ∧ (key ≠ "ArrowDown" → key ≠ "ArrowUp" → key ≠ "Home" → key ≠ "End" →
        handleKeydown a key (KeyTarget.trigger i) = ⟨a, false, false⟩) := by
  have hlen0 : 0 < a.items.length := Nat.lt_of_le_of_lt (Nat.zero_le i) hi
  have hdown : handleKeydown a "ArrowDown" (KeyTarget.trigger i)
      = ⟨{ a with focused := some ((i + 1) % a.items.length) }, true, false⟩ := by
    obtain ⟨it', t', hit', ht'⟩ :=
      focus_resolves a ((i + 1) % a.items.length) hw (Nat.mod_lt _ hlen0)
    simp only [handleKeydown, hit', ht']
    simp only [if_true]
  have hup : handleKeydown a "ArrowUp" (KeyTarget.trigger i)
      = ⟨{ a with focused := some (if i = 0 then a.items.length - 1 else i - 1) }, true,
          false⟩ := by
    have hj : (if i = 0 then a.items.length - 1 else i - 1) < a.items.length := by
      split <;> omega
    obtain ⟨it', t', hit', ht'⟩ := focus_resolves a _ hw hj
    simp only [handleKeydown, hit', ht']
    rw [if_neg (by decide)]
    simp only [if_true]
  have hhome : handleKeydown a "Home" (KeyTarget.trigger i)
      = ⟨{ a with focused := some 0 }, true, false⟩ := by
    obtain ⟨it', t', hit', ht'⟩ := focus_resolves a 0 hw hlen0
    simp only [handleKeydown, hit', ht']
    rw [if_neg (by decide), if_neg (by decide)]
    simp only [if_true]
  have hend : handleKeydown a "End" (KeyTarget.trigger i)
      = ⟨{ a with focused := some (a.items.length - 1) }, true, false⟩ := by
    obtain ⟨it', t', hit', ht'⟩ := focus_resolves a (a.items.length - 1) hw (by omega)
    simp only [handleKeydown, hit', ht']
    rw [if_neg (by decide), if_neg (by decide), if_neg (by decide)]
    simp only [if_true]
  refine ⟨hdown, hup, hhome, hend, ?_, ?_, ?_⟩
  · intro hlast
    have hmod : (i + 1) % a.items.length = 0 := by
      subst hlast
      rw [Nat.sub_add_cancel hlen0, Nat.mod_self]
    rw [hdown, hmod]
  · intro h0
    rw [hup, if_pos h0]
  · intro h1 h2 h3 h4
    simp only [handleKeydown]
    rw [if_neg h1, if_neg h2, if_neg h3, if_neg h4]

/-- Witness for C8 at the last trigger (index 2 of 3): ArrowDown wraps
focus to trigger 0, ArrowUp moves to trigger 1, Home and End jump to the
first and last trigger, and the key Escape is ignored. -/
theorem claim8_keyboard_router_witness :
    allWired w8
    ∧ 2 < w8.items.length
    ∧ (handleKeydown w8 "ArrowDown" (KeyTarget.trigger 2)
        = ⟨{ w8 with focused := some ((2 + 1) % w8.items.length) }, true, false⟩
      ∧ handleKeydown w8 "ArrowUp" (KeyTarget.trigger 2)
        = ⟨{ w8 with focused := some (if 2 = 0 then w8.items.length - 1 else 2 - 1) }, true,
            false⟩
      ∧ handleKeydown w8 "Home" (KeyTarget.trigger 2)
        = ⟨{ w8 with focused := some 0 }, true, false⟩
      ∧ handleKeydown w8 "End" (KeyTarget.trigger 2)
        = ⟨{ w8 with focused := some (w8.items.length - 1) }, true, false⟩
      ∧ (2 = w8.items.length - 1 →
          handleKeydown w8 "ArrowDown" (KeyTarget.trigger 2)
            = ⟨{ w8 with focused := some 0 }, true, false⟩)
      ∧ (2 = 0 →
          handleKeydown w8 "ArrowUp" (KeyTarget.trigger 2)
            = ⟨{ w8 with focused := some (w8.items.length - 1) }, true, false⟩)
      ∧ ("Escape" ≠ "ArrowDown" → "Escape" ≠ "ArrowUp" → "Escape" ≠ "Home" →
          "Escape" ≠ "End" →
          handleKeydown w8 "Escape" (KeyTarget.trigger 2) = ⟨w8, false, false⟩)) :=
  ⟨by decide, by decide, claim8_keyboard_router w8 2 "Escape" (by decide) (by decide)⟩

/-- Claim C1: if every item satisfies the aria-expanded invariant
(aria-expanded is the string true on the trigger exactly when the item
state is Opening or Open), then immediately after any open or close call
with an in-range index, for any animate flag, every item still satisfies
it; moreover both calls only append to the queue of deferred animation
steps, never execute one, so the attribute was written synchronously
inside the call before any deferred step runs. -/
theorem claim1_aria_expanded_invariant (a : Accordion) (index : Int) (animate : Bool)
    (hin : 0 ≤ index ∧ index.toNat < a.items.length) (hinv : ariaInv a) :
    ariaInv (openIdx a index animate).acc
    ∧ ariaInv (closeIdx a index animate).acc
    ∧ (∃ tl, (openIdx a index animate).acc.pending = a.pending ++ tl)
    ∧ (∃ tl, (closeIdx a index animate).acc.pending = a.pending ++ tl) :=
  ⟨openIdx_ariaInv a index animate hinv, closeIdx_ariaInv a index animate hinv,
   openIdx_pending a index animate, closeIdx_pending a index animate⟩

/-- Witness for C1 on a two-item widget with one open and one closed item:
an animated open(0) and close(0) both preserve the invariant and only
queue deferred steps. -/
theorem claim1_aria_expanded_invariant_witness :
    (0 ≤ (0 : Int) ∧ (0 : Int).toNat < (accOf false [itemClosedW, itemOpenW]).items.length)
    ∧ ariaInv (accOf false [itemClosedW, itemOpenW])
    ∧ (ariaInv (openIdx (accOf false [itemClosedW, itemOpenW]) 0 true).acc
      ∧ ariaInv (closeIdx (accOf false [itemClosedW, itemOpenW]) 0 true).acc
      ∧ (∃ tl, (openIdx (accOf false [itemClosedW, itemOpenW]) 0 true).acc.pending
          = (accOf false [itemClosedW, itemOpenW]).pending ++ tl)
      ∧ (∃ tl, (closeIdx (accOf false [itemClosedW, itemOpenW]) 0 true).acc.pending
          = (accOf false [itemClosedW, itemOpenW]).pending ++ tl)) :=
  ⟨⟨by decide, by decide⟩, by decide,
   claim1_aria_expanded_invariant (accOf false [itemClosedW, itemOpenW]) 0 true
     ⟨by decide, by decide⟩ (by decide)⟩

theorem closeItemFn_fields (it : Item) (t : Trigger) (c : Content) (an : Bool)
    (ht : it.trigger = some t) (hc : it.content = some c) :
    (closeItemFn it an).activeClass = false
    ∧ (closeItemFn it an).trigger = some { t with ariaExpanded := some "false" }
    ∧ (closeItemFn it an).openState
        = (if an then OpenState.Closing else OpenState.Closed) := by
  cases an <;> simp [closeItemFn, ht, hc]

theorem openItemFn_fields (it : Item) (t : Trigger) (c : Content) (an : Bool)
    (ht : it.trigger = some t) (hc : it.content = some c) :
    (openItemFn it an).activeClass = true
    ∧ (openItemFn it an).trigger = some { t with ariaExpanded := some "true" }
    ∧ (∃ c2, (openItemFn it an).content = some c2 ∧ c2.hidden = false)
    ∧ (openItemFn it an).openState
        = (if an then OpenState.Opening else OpenState.Open) := by
  cases an <;> simp [openItemFn, ht, hc]

/-- Claim C2: with allowMultiple false, open(iB, animate) on a fully wired
widget throws nothing and, within the same call, closes every other item
(so in particular every other currently open item) before mutating the
target: afterwards every item j other than iB has the active class
removed, aria-expanded false and ghost state Closing or Closed according
to the same animate flag as the triggering call, while item iB ends with
the active class, aria-expanded true and its content unhidden; the event
trace shows every cascaded closed event dispatched before the opened
event of iB; and, in contrast, with allowMultiple true the same call
leaves every other item untouched, so an open item A stays open, while
the target item B still ends open (last conjunct). -/
theorem claim2_exclusive_open_cascade (a : Accordion) (iB : Nat) (an : Bool)
    (hm : a.allowMultiple = false) (hw : allWired a) (hB : iB < a.items.length) :
    (openIdx a (Int.ofNat iB) an).thrown = false
    ∧ (∀ j jt, j ≠ iB → a.items[j]? = some jt →
        ∃ jt2, (openIdx a (Int.ofNat iB) an).acc.items[j]? = some jt2
          ∧ jt2.activeClass = false
          ∧ (∃ t, jt2.trigger = some t ∧ t.ariaExpanded = some "false")
          ∧ jt2.openState = (if an then OpenState.Closing else OpenState.Closed))
    ∧ (∃ it2, (openIdx a (Int.ofNat iB) an).acc.items[iB]? = some it2
        ∧ it2.activeClass = true
        ∧ (∃ t, it2.trigger = some t ∧ t.ariaExpanded = some "true")
        ∧ (∃ c, it2.content = some c ∧ c.hidden = false))
    ∧ (∃ pre, (openIdx a (Int.ofNat iB) an).acc.events = a.events ++ pre ++ [Ev.opened iB]
        ∧ ∀ e ∈ pre, ∃ j, j ≠ iB ∧ e = Ev.closed j)
    ∧ (∀ j, j ≠ iB →
        (openIdx { a with allowMultiple := true } (Int.ofNat iB) an).acc.items[j]?
          = a.items[j]?)
    ∧ (∃ it2, (openIdx { a with allowMultiple := true } (Int.ofNat iB) an).acc.items[iB]?
          = some it2
        ∧ it2.activeClass = true
        ∧ (∃ t, it2.trigger = some t ∧ t.ariaExpanded = some "true")
        ∧ (∃ c, it2.content = some c ∧ c.hidden = false)) := by
  have hit : a.items[iB]? = some a.items[iB] := List.getElem?_eq_getElem hB
  set it := a.items[iB] with hitdef
  have hwB := hw it (List.getElem?_mem hit)
  unfold wiredItem at hwB
  rw [Bool.and_eq_true] at hwB
  obtain ⟨t, ht⟩ := Option.isSome_iff_exists.mp hwB.1
  obtain ⟨c, hc⟩ := Option.isSome_iff_exists.mp hwB.2
  obtain ⟨hth, htgt, hoth, _⟩ := openIdx_spec_single a iB it t c an hm hw hit ht hc
  refine ⟨hth, ?_, ?_, ?_, ?_, ?_⟩
  · intro j jt hj hjt
    have hwj := hw jt (List.getElem?_mem hjt)
    unfold wiredItem at hwj
    rw [Bool.and_eq_true] at hwj
    obtain ⟨tj, htj⟩ := Option.isSome_iff_exists.mp hwj.1
    obtain ⟨cj, hcj⟩ := Option.isSome_iff_exists.mp hwj.2
    obtain ⟨hf1, hf2, hf3⟩ := closeItemFn_fields jt tj cj an htj hcj
    exact ⟨closeItemFn jt an, hoth j jt hj hjt, hf1, ⟨_, hf2, rfl⟩, hf3⟩
  · obtain ⟨hf1, hf2, hf3, _⟩ := openItemFn_fields it t c an ht hc
    exact ⟨openItemFn it an, htgt, hf1, ⟨_, hf2, rfl⟩, hf3⟩
  · have hcc := (cascadeClose_spec a iB an hw).1
    obtain ⟨pre, hpre, hall⟩ := cascadeClose_events a iB an
    rw [openIdx_wired_single a iB it t c hm hit ht hc an hcc]
    refine ⟨pre, ?_, hall⟩
    show (cascadeClose a iB an).acc.events ++ [Ev.opened iB] = _
    rw [hpre, List.append_assoc]
  · intro j hj
    have hit2 : ({ a with allowMultiple := true } : Accordion).items[iB]? = some it := hit
    have := openIdx_spec_multi { a with allowMultiple := true } iB it t c an rfl hit2 ht hc
    exact this.2.2.1 j hj
  · have hit2 : ({ a with allowMultiple := true } : Accordion).items[iB]? = some it := hit
    have hmu := openIdx_spec_multi { a with allowMultiple := true } iB it t c an rfl hit2 ht hc
    obtain ⟨hf1, hf2, hf3, _⟩ := openItemFn_fields it t c an ht hc
    exact ⟨openItemFn it an, hmu.2.1, hf1, ⟨_, hf2, rfl⟩, hf3⟩

/-- Witness for C2 on w2 with an animated open(1): item 0 ends closed,
item 1 ends open, the cascaded closed events precede the opened event,
and flipping allowMultiple to true leaves item 0 untouched while item 1
still ends open. -/
theorem claim2_exclusive_open_cascade_witness :
    w2.allowMultiple = false
    ∧ allWired w2
    ∧ 1 < w2.items.length
    ∧ ((openIdx w2 (Int.ofNat 1) true).thrown = false
      ∧ (∀ j jt, j ≠ 1 → w2.items[j]? = some jt →
          ∃ jt2, (openIdx w2 (Int.ofNat 1) true).acc.items[j]? = some jt2
            ∧ jt2.activeClass = false
            ∧ (∃ t, jt2.trigger = some t ∧ t.ariaExpanded = some "false")
            ∧ jt2.openState = (if true then OpenState.Closing else OpenState.Closed))
      ∧ (∃ it2, (openIdx w2 (Int.ofNat 1) true).acc.items[1]? = some it2
          ∧ it2.activeClass = true
          ∧ (∃ t, it2.trigger = some t ∧ t.ariaExpanded = some "true")
          ∧ (∃ c, it2.content = some c ∧ c.hidden = false))
      ∧ (∃ pre, (openIdx w2 (Int.ofNat 1) true).acc.events
            = w2.events ++ pre ++ [Ev.opened 1]
          ∧ ∀ e ∈ pre, ∃ j, j ≠ 1 ∧ e = Ev.closed j)
      ∧ (∀ j, j ≠ 1 →
          (openIdx { w2 with allowMultiple := true } (Int.ofNat 1) true).acc.items[j]?
            = w2.items[j]?)
      ∧ (∃ it2,
          (openIdx { w2 with allowMultiple := true } (Int.ofNat 1) true).acc.items[1]?
            = some it2
          ∧ it2.activeClass = true
          ∧ (∃ t, it2.trigger = some t ∧ t.ariaExpanded = some "true")
          ∧ (∃ c, it2.content = some c ∧ c.hidden = false))) :=
  ⟨rfl, by decide, by decide,
   claim2_exclusive_open_cascade w2 1 true rfl (by decide) (by decide)⟩
